import Mathlib

/-
Shallow embedding of the reminder subsystem of `src/server.js` (the medicine
reminder backend): the two module-level maps `allReminders` and
`activeReminders`, the `POST /api/reminders` handler (createReminder), the
`POST /api/reminders/:reminderId/taken` handler (markTaken), the firing of a
pending `setTimeout` callback (fireTimer), and `GET /api/reminders`
(listReminders).

Modelling conventions:
  - JavaScript `Map` objects become association lists `List (String × α)`.
    `Map.set` on an existing key updates the entry in place (keeping its
    insertion position); on a new key it appends.  `Map.delete` removes the
    entry.  Iteration order is insertion order, which the list preserves.
  - Timestamps (`new Date().toISOString()`, `Date.now()`) become an abstract
    `Nat` supplied with each request.
  - A possibly-`undefined` JavaScript value becomes an `Option`.  The
    `TypeError` thrown by `guardianPhone.startsWith` when `guardianPhone` is
    `undefined` becomes an explicit `CreateResult.typeError` outcome.
  - The Twilio client being initialized becomes a boolean `twilioReady`
    fixed at startup; an attempted `messages.create` call is recorded in a
    notification log tagged with the reminder id it was fired for.
  - Node's single-threaded event loop means a callback whose timeout was
    cleared via `clearTimeout` never runs; firing is therefore modelled as a
    step that is a no-op unless the id still has an armed entry.
-/

namespace Invictus

/-- Status of a stored reminder record: the string field `status` of the
objects kept in `allReminders` takes exactly the values given to it by the
source, which are the literals `active` and `taken`. -/
inductive Status where
  | active
  | taken
deriving DecidableEq, Repr

/-- A record stored in the `allReminders` map (src/server.js lines 260-266
and 400-404).  `guardianPhone` is an `Option` because the handler stores the
request field before validating it, so it may be `undefined`. -/
structure Record where
  medicineName : String
  guardianPhone : Option String
  time : String
  status : Status
  createdAt : Nat
  takenAt : Option Nat
deriving DecidableEq, Repr

/-- An entry of the `activeReminders` map (src/server.js lines 343-355)
together with the `timerRef.triggered` flag of its arm (lines 291-294).
The payload is captured at arm time, as in the source closure. -/
structure ArmEntry where
  medicineName : String
  guardianPhone : String
  time : String
  triggered : Bool
deriving DecidableEq, Repr

/-- One attempted guardian notification: the `twilioClient.messages.create`
call of the timer callback (src/server.js lines 317-321), tagged with the
reminder id the callback was armed for. -/
structure Notification where
  reminderId : String
  sentTo : String
  medicineName : String
  time : String
deriving DecidableEq, Repr

/-- `Map.get` of a JavaScript `Map` modelled as an association list. -/
def lookupEntry {α : Type} (m : List (String × α)) (k : String) : Option α :=
  match m with
  | [] => none
  | (k2, v) :: rest => if k2 = k then some v else lookupEntry rest k

/-- `Map.set` of a JavaScript `Map`: updates an existing entry in place
(keeping its insertion position) or appends a new one. -/
def setEntry {α : Type} (m : List (String × α)) (k : String) (v : α) :
    List (String × α) :=
  match m with
  | [] => [(k, v)]
  | (k2, v2) :: rest =>
    if k2 = k then (k, v) :: rest else (k2, v2) :: setEntry rest k v

/-- `Map.delete` of a JavaScript `Map`. -/
def delEntry {α : Type} (m : List (String × α)) (k : String) :
    List (String × α) :=
  match m with
  | [] => []
  | (k2, v2) :: rest =>
    if k2 = k then delEntry rest k else (k2, v2) :: delEntry rest k

/-- Number of entries a key has in an association list (a real `Map` always
has at most one). -/
def countKey {α : Type} (m : List (String × α)) (k : String) : Nat :=
  match m with
  | [] => 0
  | (k2, _) :: rest => (if k2 = k then 1 else 0) + countKey rest k

/-- `guardianPhone.startsWith('+')` (src/server.js line 269): true exactly
when the first character of the string is `+`. -/
def startsWithPlus (s : String) : Bool :=
  match s.data with
  | [] => false
  | c :: _ => c = '+'

/-- The module-level mutable state of src/server.js that the reminder
endpoints touch: the two maps (lines 117-118), the log of attempted guardian
notifications, and whether the Twilio client was initialized (lines 99-114,
fixed at startup). -/
structure ServerState where
  allReminders : List (String × Record)
  activeReminders : List (String × ArmEntry)
  notifications : List Notification
  twilioReady : Bool
deriving DecidableEq, Repr

/-- State at process start: both maps empty, nothing sent. -/
def initState (ready : Bool) : ServerState :=
  { allReminders := [], activeReminders := [], notifications := [],
    twilioReady := ready }

/-- Outcome of the `POST /api/reminders` handler: 400 for a falsy
`reminderId`, 400 for a phone not starting with `+`, an uncaught `TypeError`
when `guardianPhone` is `undefined` (`startsWith` on `undefined`), or the
200 success response. -/
inductive CreateResult where
  | missingId
  | invalidPhone
  | typeError
  | ok
deriving DecidableEq, Repr

/-- Outcome of the `POST /api/reminders/:reminderId/taken` handler: 400 for
a falsy id, 404 when the id is absent from `allReminders`, or the 200
response carrying the `takenAt` timestamp it just wrote. -/
inductive TakenResult where
  | badId
  | notFound
  | ok (takenAt : Nat)
deriving DecidableEq, Repr

/-- The record object written into `allReminders` by the create handler
(src/server.js lines 260-266). -/
def storedRec (medicineName : String) (guardianPhone : Option String)
    (time : String) (now : Nat) : Record :=
  { medicineName := medicineName, guardianPhone := guardianPhone,
    time := time, status := Status.active, createdAt := now, takenAt := none }

/-- The freshly armed timer entry: `timerRef` with `triggered := false`
(src/server.js lines 291-294) together with the payload stored into
`activeReminders` (lines 343-355). -/
def freshArm (medicineName guardianPhone time : String) : ArmEntry :=
  { medicineName := medicineName, guardianPhone := guardianPhone,
    time := time, triggered := false }

/-- The guardian SMS attempted by the callback of the arm of `reminderId`
(src/server.js lines 317-321). -/
def alertOf (reminderId : String) (e : ArmEntry) : Notification :=
  { reminderId := reminderId, sentTo := e.guardianPhone,
    medicineName := e.medicineName, time := e.time }

/-- The `POST /api/reminders` handler (src/server.js lines 243-376).
Order of effects, as in the source: falsy-id check; write the record into
`allReminders` with `status := active`; validate the phone (throwing a
`TypeError` if it is `undefined`, returning 400 if it lacks the leading
`+`); only then clear any existing timer for the id and arm a fresh one with
`triggered := false`, replacing the `activeReminders` entry. -/
def createReminder (s : ServerState) (reminderId medicineName : String)
    (guardianPhone : Option String) (time : String) (now : Nat) :
    CreateResult × ServerState :=
  if reminderId = "" then
    (CreateResult.missingId, s)
  else
    let newRec : Record := storedRec medicineName guardianPhone time now
    let s1 : ServerState :=
      { s with allReminders := setEntry s.allReminders reminderId newRec }
    match guardianPhone with
    | none => (CreateResult.typeError, s1)
    | some phone =>
      if startsWithPlus phone = true then
        let armed :=
          setEntry s1.activeReminders reminderId (freshArm medicineName phone time)
        let s2 : ServerState := { s1 with activeReminders := armed }
        (CreateResult.ok, s2)
      else
        (CreateResult.invalidPhone, s1)

/-- The `POST /api/reminders/:reminderId/taken` handler (src/server.js lines
379-427): falsy-id check; 404 when `allReminders` has no such id; otherwise
set `status := taken` and overwrite `takenAt` with the current time, then
clear and remove any pending timer for the id. -/
def markTaken (s : ServerState) (reminderId : String) (now : Nat) :
    TakenResult × ServerState :=
  if reminderId = "" then
    (TakenResult.badId, s)
  else
    match lookupEntry s.allReminders reminderId with
    | none => (TakenResult.notFound, s)
    | some rd =>
      let rd2 : Record := { rd with status := Status.taken, takenAt := some now }
      let s1 : ServerState :=
        { s with allReminders := setEntry s.allReminders reminderId rd2 }
      let s2 : ServerState :=
        { s1 with activeReminders := delEntry s1.activeReminders reminderId }
      (TakenResult.ok now, s2)

/-- The timer callback of an arm firing (src/server.js lines 297-340).  A
callback whose timeout was cleared never runs, so the step is a no-op when
the id has no armed entry.  Otherwise: if `timerRef.triggered` is already
true the callback returns before the try block (no send, no cleanup);
otherwise it sets `triggered := true`, attempts the guardian SMS when the
Twilio client is initialized (a missing client throws before the send, and
either way the error is swallowed), and in the `finally` block deletes the
id from `activeReminders`. -/
def fireTimer (s : ServerState) (reminderId : String) : ServerState :=
  match lookupEntry s.activeReminders reminderId with
  | none => s
  | some entry =>
    if entry.triggered = true then
      s
    else
      let marked := setEntry s.activeReminders reminderId
        ({ entry with triggered := true })
      let s1 : ServerState := { s with activeReminders := marked }
      let s2 : ServerState :=
        if s1.twilioReady = true then
          { s1 with notifications := s1.notifications ++ [alertOf reminderId entry] }
        else
          s1
      { s2 with activeReminders := delEntry s2.activeReminders reminderId }

/-- The `GET /api/reminders` handler (src/server.js lines 430-436): all
records ever created, in `Map` iteration order, i.e. insertion order. -/
def listReminders (s : ServerState) : List (String × Record) :=
  s.allReminders

/-- A public operation arriving at the server: a create request, a taken
request, or the deadline of the currently armed timer of an id elapsing. -/
inductive Event where
  | create (id medicineName : String) (guardianPhone : Option String)
      (time : String) (now : Nat)
  | taken (id : String) (now : Nat)
  | fire (id : String)

/-- One step of the server: dispatch an event to its handler, keeping only
the state (responses are modelled separately by the handlers' first
components). -/
def step (s : ServerState) (e : Event) : ServerState :=
  match e with
  | Event.create id medicineName guardianPhone time now =>
    (createReminder s id medicineName guardianPhone time now).2
  | Event.taken id now => (markTaken s id now).2
  | Event.fire id => fireTimer s id

/-- Run a sequence of events from a state. -/
def run (s : ServerState) (es : List Event) : ServerState :=
  es.foldl step s

/-- Whether an event is a create request for the given id. -/
def isCreateFor (id : String) (e : Event) : Bool :=
  match e with
  | Event.create id2 _ _ _ _ => decide (id2 = id)
  | _ => false

/-- Notification attempts recorded for a given reminder id. -/
def notifsForList (l : List Notification) (id : String) : List Notification :=
  l.filter (fun n => decide (n.reminderId = id))

/-- Notification attempts of a state for a given reminder id. -/
def notifsFor (s : ServerState) (id : String) : List Notification :=
  notifsForList s.notifications id

/-- At most one entry per key: the well-formedness every real `Map` state
enjoys. -/
def KeyUnique {α : Type} (m : List (String × α)) : Prop :=
  ∀ k, countKey m k ≤ 1

theorem lookupEntry_setEntry_self {α : Type} (m : List (String × α))
    (k : String) (v : α) : lookupEntry (setEntry m k v) k = some v := by
  induction m with
  | nil => simp [setEntry, lookupEntry]
  | cons p rest ih =>
    obtain ⟨k2, v2⟩ := p
    by_cases h : k2 = k
    · simp [setEntry, h, lookupEntry]
    · simp [setEntry, h, lookupEntry, ih]

theorem lookupEntry_setEntry_ne {α : Type} (m : List (String × α))
    (k j : String) (v : α) (h : j ≠ k) :
    lookupEntry (setEntry m k v) j = lookupEntry m j := by
  have hkj : ¬ k = j := fun hk => h hk.symm
  induction m with
  | nil => simp [setEntry, lookupEntry, hkj]
  | cons p rest ih =>
    obtain ⟨k2, v2⟩ := p
    by_cases h2 : k2 = k
    · subst h2
      simp [setEntry, lookupEntry, hkj]
    · simp [setEntry, h2, lookupEntry, ih]

theorem lookupEntry_delEntry_self {α : Type} (m : List (String × α))
    (k : String) : lookupEntry (delEntry m k) k = none := by
  induction m with
  | nil => simp [delEntry, lookupEntry]
  | cons p rest ih =>
    obtain ⟨k2, v2⟩ := p
    by_cases h : k2 = k
    · simp [delEntry, h, ih]
    · simp [delEntry, h, lookupEntry, ih]

theorem lookupEntry_delEntry_ne {α : Type} (m : List (String × α))
    (k j : String) (h : j ≠ k) :
    lookupEntry (delEntry m k) j = lookupEntry m j := by
  have hkj : ¬ k = j := fun hk => h hk.symm
  induction m with
  | nil => simp [delEntry]
  | cons p rest ih =>
    obtain ⟨k2, v2⟩ := p
    by_cases h2 : k2 = k
    · subst h2
      simp [delEntry, lookupEntry, hkj, ih]
    · simp [delEntry, h2, lookupEntry, ih]

theorem delEntry_setEntry_self {α : Type} (m : List (String × α))
    (k : String) (v : α) : delEntry (setEntry m k v) k = delEntry m k := by
  induction m with
  | nil => simp [setEntry, delEntry]
  | cons p rest ih =>
    obtain ⟨k2, v2⟩ := p
    by_cases h : k2 = k
    · simp [setEntry, h, delEntry]
    · simp [setEntry, h, delEntry, ih]

theorem countKey_setEntry_self {α : Type} (m : List (String × α))
    (k : String) (v : α) :
    countKey (setEntry m k v) k = max (countKey m k) 1 := by
  induction m with
  | nil => simp [setEntry, countKey]
  | cons p rest ih =>
    obtain ⟨k2, v2⟩ := p
    by_cases h : k2 = k
    · simp only [setEntry, h, if_pos, countKey, if_pos rfl]
      omega
    · simp [setEntry, h, countKey, ih]

theorem countKey_setEntry_ne {α : Type} (m : List (String × α))
    (k j : String) (v : α) (h : j ≠ k) :
    countKey (setEntry m k v) j = countKey m j := by
  have hkj : ¬ k = j := fun hk => h hk.symm
  induction m with
  | nil => simp [setEntry, countKey, hkj]
  | cons p rest ih =>
    obtain ⟨k2, v2⟩ := p
    by_cases h2 : k2 = k
    · subst h2
      simp [setEntry, countKey, hkj]
    · simp [setEntry, h2, countKey, ih]

theorem countKey_delEntry_self {α : Type} (m : List (String × α))
    (k : String) : countKey (delEntry m k) k = 0 := by
  induction m with
  | nil => simp [delEntry, countKey]
  | cons p rest ih =>
    obtain ⟨k2, v2⟩ := p
    by_cases h : k2 = k
    · simp [delEntry, h, ih]
    · simp [delEntry, h, countKey, ih]

theorem countKey_delEntry_ne {α : Type} (m : List (String × α))
    (k j : String) (h : j ≠ k) :
    countKey (delEntry m k) j = countKey m j := by
  have hkj : ¬ k = j := fun hk => h hk.symm
  induction m with
  | nil => simp [delEntry]
  | cons p rest ih =>
    obtain ⟨k2, v2⟩ := p
    by_cases h2 : k2 = k
    · subst h2
      simp [delEntry, countKey, hkj, ih]
    · simp [delEntry, h2, countKey, ih]

theorem notifsForList_append (l1 l2 : List Notification) (id : String) :
    notifsForList (l1 ++ l2) id = notifsForList l1 id ++ notifsForList l2 id := by
  simp [notifsForList, List.filter_append]

theorem createReminder_ok_eq (s : ServerState)
    (id medicineName phone time : String) (now : Nat)
    (hid : ¬ id = "") (hph : startsWithPlus phone = true) :
    createReminder s id medicineName (some phone) time now =
      (CreateResult.ok,
       { s with
           allReminders :=
             setEntry s.allReminders id (storedRec medicineName (some phone) time now),
           activeReminders :=
             setEntry s.activeReminders id (freshArm medicineName phone time) }) := by
  simp [createReminder, hid, hph]

theorem createReminder_invalid_eq (s : ServerState)
    (id medicineName phone time : String) (now : Nat)
    (hid : ¬ id = "") (hph : startsWithPlus phone = false) :
    createReminder s id medicineName (some phone) time now =
      (CreateResult.invalidPhone,
       { s with
           allReminders :=
             setEntry s.allReminders id (storedRec medicineName (some phone) time now) }) := by
  simp [createReminder, hid, hph]

theorem createReminder_none_eq (s : ServerState)
    (id medicineName time : String) (now : Nat) (hid : ¬ id = "") :
    createReminder s id medicineName none time now =
      (CreateResult.typeError,
       { s with
           allReminders :=
             setEntry s.allReminders id (storedRec medicineName none time now) }) := by
  simp [createReminder, hid]

theorem markTaken_ok_eq (s : ServerState) (id : String) (now : Nat)
    (rd : Record) (hid : ¬ id = "")
    (hr : lookupEntry s.allReminders id = some rd) :
    markTaken s id now =
      (TakenResult.ok now,
       { s with
           allReminders :=
             setEntry s.allReminders id ({ rd with status := Status.taken, takenAt := some now }),
           activeReminders := delEntry s.activeReminders id }) := by
  simp [markTaken, hid, hr]

theorem markTaken_notFound_eq (s : ServerState) (id : String) (now : Nat)
    (hid : ¬ id = "") (hr : lookupEntry s.allReminders id = none) :
    markTaken s id now = (TakenResult.notFound, s) := by
  simp [markTaken, hid, hr]

theorem fireTimer_none_eq (s : ServerState) (id : String)
    (h : lookupEntry s.activeReminders id = none) : fireTimer s id = s := by
  simp [fireTimer, h]

theorem fireTimer_triggered_eq (s : ServerState) (id : String) (e : ArmEntry)
    (h : lookupEntry s.activeReminders id = some e)
    (ht : e.triggered = true) : fireTimer s id = s := by
  simp [fireTimer, h, ht]

theorem fireTimer_fresh_eq (s : ServerState) (id : String) (e : ArmEntry)
    (h : lookupEntry s.activeReminders id = some e)
    (ht : e.triggered = false) (hready : s.twilioReady = true) :
    fireTimer s id =
      { s with
          activeReminders := delEntry s.activeReminders id,
          notifications := s.notifications ++ [alertOf id e] } := by
  simp [fireTimer, h, ht, hready, delEntry_setEntry_self]

theorem fireTimer_fresh_offline_eq (s : ServerState) (id : String) (e : ArmEntry)
    (h : lookupEntry s.activeReminders id = some e)
    (ht : e.triggered = false) (hready : s.twilioReady = false) :
    fireTimer s id =
      { s with activeReminders := delEntry s.activeReminders id } := by
  simp [fireTimer, h, ht, hready, delEntry_setEntry_self]

theorem createReminder_cases (s : ServerState)
    (id medicineName : String) (phone : Option String) (time : String) (now : Nat) :
    (createReminder s id medicineName phone time now).2 = s
    ∨ ((createReminder s id medicineName phone time now).2.allReminders
          = setEntry s.allReminders id (storedRec medicineName phone time now)
        ∧ (createReminder s id medicineName phone time now).2.notifications
          = s.notifications
        ∧ (createReminder s id medicineName phone time now).2.twilioReady
          = s.twilioReady
        ∧ ((createReminder s id medicineName phone time now).2.activeReminders
            = s.activeReminders
          ∨ ∃ p, phone = some p
              ∧ (createReminder s id medicineName phone time now).2.activeReminders
                = setEntry s.activeReminders id (freshArm medicineName p time))) := by
  by_cases hid : id = ""
  · left
    simp [createReminder, hid]
  · right
    cases phone with
    | none =>
      rw [createReminder_none_eq s id medicineName time now hid]
      exact ⟨rfl, rfl, rfl, Or.inl rfl⟩
    | some p =>
      by_cases hph : startsWithPlus p = true
      · rw [createReminder_ok_eq s id medicineName p time now hid hph]
        exact ⟨rfl, rfl, rfl, Or.inr ⟨p, rfl, rfl⟩⟩
      · rw [createReminder_invalid_eq s id medicineName p time now hid
          (by revert hph; cases startsWithPlus p <;> simp)]
        exact ⟨rfl, rfl, rfl, Or.inl rfl⟩

theorem markTaken_cases (s : ServerState) (id : String) (now : Nat) :
    (markTaken s id now).2 = s
    ∨ ∃ rd, lookupEntry s.allReminders id = some rd
        ∧ (markTaken s id now).2 =
          { s with
              allReminders :=
                setEntry s.allReminders id ({ rd with status := Status.taken, takenAt := some now }),
              activeReminders := delEntry s.activeReminders id } := by
  by_cases hid : id = ""
  · left
    simp [markTaken, hid]
  · cases hr : lookupEntry s.allReminders id with
    | none =>
      left
      rw [markTaken_notFound_eq s id now hid hr]
    | some rd =>
      right
      exact ⟨rd, rfl, by rw [markTaken_ok_eq s id now rd hid hr]⟩

theorem fireTimer_cases (s : ServerState) (id : String) :
    fireTimer s id = s
    ∨ ∃ e, lookupEntry s.activeReminders id = some e ∧ e.triggered = false
        ∧ (fireTimer s id =
            { s with
                activeReminders := delEntry s.activeReminders id,
                notifications := s.notifications ++ [alertOf id e] }
          ∨ fireTimer s id =
            { s with activeReminders := delEntry s.activeReminders id }) := by
  cases h : lookupEntry s.activeReminders id with
  | none => exact Or.inl (fireTimer_none_eq s id h)
  | some e =>
    cases ht : e.triggered with
    | true => exact Or.inl (fireTimer_triggered_eq s id e h ht)
    | false =>
      refine Or.inr ⟨e, rfl, ht, ?_⟩
      cases hready : s.twilioReady with
      | true =>
        left
        rw [fireTimer_fresh_eq s id e h ht hready, hready]
      | false =>
        right
        rw [fireTimer_fresh_offline_eq s id e h ht hready, hready]

theorem fireTimer_allReminders (s : ServerState) (id : String) :
    (fireTimer s id).allReminders = s.allReminders := by
  rcases fireTimer_cases s id with h | ⟨e, _, _, h | h⟩ <;> rw [h]

theorem fireTimer_listReminders (s : ServerState) (id : String) :
    listReminders (fireTimer s id) = listReminders s := by
  simp [listReminders, fireTimer_allReminders]

theorem run_nil (s : ServerState) : run s [] = s := rfl

theorem run_cons (s : ServerState) (e : Event) (es : List Event) :
    run s (e :: es) = run (step s e) es := rfl

/-- A reminder id with no armed timer stays unarmed, and accumulates no
notification, across any step that is not a create request for it. -/
theorem step_preserves_unarmed (s : ServerState) (id : String) (e : Event)
    (hnone : lookupEntry s.activeReminders id = none)
    (he : isCreateFor id e = false) :
    lookupEntry (step s e).activeReminders id = none
    ∧ notifsFor (step s e) id = notifsFor s id := by
  cases e with
  | create id2 name2 phone2 time2 now2 =>
    have hne : ¬ id2 = id := by simpa [isCreateFor] using he
    rcases createReminder_cases s id2 name2 phone2 time2 now2 with h | ⟨_, hn, _, ha⟩
    · rw [step, h]
      exact ⟨hnone, rfl⟩
    · constructor
      · rcases ha with ha | ⟨p, _, ha⟩
        · rw [step, ha]
          exact hnone
        · rw [step, ha, lookupEntry_setEntry_ne _ _ _ _ (fun hk => hne hk.symm)]
          exact hnone
      · simp [step, notifsFor, hn]
  | taken id2 now2 =>
    rcases markTaken_cases s id2 now2 with h | ⟨rd, hr, h⟩
    · rw [step, h]
      exact ⟨hnone, rfl⟩
    · constructor
      · rw [step, h]
        by_cases hij : id = id2
        · subst hij
          exact lookupEntry_delEntry_self _ _
        · rw [show ({ s with
              allReminders := setEntry s.allReminders id2
                ({ rd with status := Status.taken, takenAt := some now2 }),
              activeReminders := delEntry s.activeReminders id2 } :
                ServerState).activeReminders = delEntry s.activeReminders id2 from rfl,
            lookupEntry_delEntry_ne _ _ _ hij]
          exact hnone
      · rw [step, h]
        rfl
  | fire id2 =>
    by_cases hij : id2 = id
    · subst hij
      rw [step, fireTimer_none_eq s id2 hnone]
      exact ⟨hnone, rfl⟩
    · rcases fireTimer_cases s id2 with h | ⟨e2, he2, ht2, h | h⟩
      · rw [step, h]
        exact ⟨hnone, rfl⟩
      · rw [step, h]
        refine ⟨?_, ?_⟩
        · rw [show ({ s with
              activeReminders := delEntry s.activeReminders id2,
              notifications := s.notifications ++ [alertOf id2 e2] } :
                ServerState).activeReminders = delEntry s.activeReminders id2 from rfl,
            lookupEntry_delEntry_ne _ _ _ (fun hk => hij hk.symm)]
          exact hnone
        · simp [notifsFor, notifsForList, alertOf, hij]
      · rw [step, h]
        refine ⟨?_, rfl⟩
        rw [show ({ s with activeReminders := delEntry s.activeReminders id2 } :
              ServerState).activeReminders = delEntry s.activeReminders id2 from rfl,
          lookupEntry_delEntry_ne _ _ _ (fun hk => hij hk.symm)]
        exact hnone

/-- Lifting of `step_preserves_unarmed` to event sequences. -/
theorem run_preserves_unarmed (s : ServerState) (id : String) (es : List Event)
    (hnone : lookupEntry s.activeReminders id = none)
    (hes : ∀ e ∈ es, isCreateFor id e = false) :
    lookupEntry (run s es).activeReminders id = none
    ∧ notifsFor (run s es) id = notifsFor s id := by
  induction es generalizing s with
  | nil => exact ⟨hnone, rfl⟩
  | cons e rest ih =>
    have h1 := step_preserves_unarmed s id e hnone (hes e (by simp))
    have h2 := ih (step s e) h1.1 (fun e2 he2 => hes e2 (by simp [he2]))
    rw [run_cons]
    exact ⟨h2.1, h2.2.trans h1.2⟩

/-- A record in status `taken` keeps status `taken` across any step that is
not a create request for its id. -/
theorem step_preserves_taken (s : ServerState) (id : String) (e : Event)
    (r : Record) (hr : lookupEntry s.allReminders id = some r)
    (hst : r.status = Status.taken) (he : isCreateFor id e = false) :
    ∃ r2, lookupEntry (step s e).allReminders id = some r2
      ∧ r2.status = Status.taken := by
  cases e with
  | create id2 name2 phone2 time2 now2 =>
    have hne : ¬ id2 = id := by simpa [isCreateFor] using he
    rcases createReminder_cases s id2 name2 phone2 time2 now2 with h | ⟨ha, _, _, _⟩
    · rw [step, h]
      exact ⟨r, hr, hst⟩
    · rw [step, ha, lookupEntry_setEntry_ne _ _ _ _ (fun hk => hne hk.symm)]
      exact ⟨r, hr, hst⟩
  | taken id2 now2 =>
    rcases markTaken_cases s id2 now2 with h | ⟨rd, hrd, h⟩
    · rw [step, h]
      exact ⟨r, hr, hst⟩
    · rw [step, h]
      by_cases hij : id = id2
      · subst hij
        rw [show ({ s with
            allReminders := setEntry s.allReminders id
              ({ rd with status := Status.taken, takenAt := some now2 }),
            activeReminders := delEntry s.activeReminders id } :
              ServerState).allReminders = setEntry s.allReminders id
                ({ rd with status := Status.taken, takenAt := some now2 }) from rfl,
          lookupEntry_setEntry_self]
        exact ⟨_, rfl, rfl⟩
      · rw [show ({ s with
            allReminders := setEntry s.allReminders id2
              ({ rd with status := Status.taken, takenAt := some now2 }),
            activeReminders := delEntry s.activeReminders id2 } :
              ServerState).allReminders = setEntry s.allReminders id2
                ({ rd with status := Status.taken, takenAt := some now2 }) from rfl,
          lookupEntry_setEntry_ne _ _ _ _ hij]
        exact ⟨r, hr, hst⟩
  | fire id2 =>
    rw [step, fireTimer_allReminders]
    exact ⟨r, hr, hst⟩

/-- Lifting of `step_preserves_taken` to event sequences. -/
theorem run_preserves_taken (s : ServerState) (id : String) (es : List Event)
    (r : Record) (hr : lookupEntry s.allReminders id = some r)
    (hst : r.status = Status.taken)
    (hes : ∀ e ∈ es, isCreateFor id e = false) :
    ∃ r2, lookupEntry (run s es).allReminders id = some r2
      ∧ r2.status = Status.taken := by
  induction es generalizing s r with
  | nil => exact ⟨r, hr, hst⟩
  | cons e rest ih =>
    obtain ⟨r2, hr2, hst2⟩ :=
      step_preserves_taken s id e r hr hst (hes e (by simp))
    rw [run_cons]
    exact ih (step s e) r2 hr2 hst2 (fun e2 he2 => hes e2 (by simp [he2]))

/-- A record present in the store stays present across any step: no handler
ever removes an entry from `allReminders`. -/
theorem step_preserves_presence (s : ServerState) (id : String) (e : Event)
    (h : (lookupEntry s.allReminders id).isSome = true) :
    (lookupEntry (step s e).allReminders id).isSome = true := by
  cases e with
  | create id2 name2 phone2 time2 now2 =>
    rcases createReminder_cases s id2 name2 phone2 time2 now2 with h2 | ⟨ha, _, _, _⟩
    · rw [step, h2]
      exact h
    · rw [step, ha]
      by_cases hij : id = id2
      · subst hij
        rw [lookupEntry_setEntry_self]
        rfl
      · rw [lookupEntry_setEntry_ne _ _ _ _ hij]
        exact h
  | taken id2 now2 =>
    rcases markTaken_cases s id2 now2 with h2 | ⟨rd, hrd, h2⟩
    · rw [step, h2]
      exact h
    · rw [step, h2]
      by_cases hij : id = id2
      · subst hij
        rw [show ({ s with
            allReminders := setEntry s.allReminders id
              ({ rd with status := Status.taken, takenAt := some now2 }),
            activeReminders := delEntry s.activeReminders id } :
              ServerState).allReminders = setEntry s.allReminders id
                ({ rd with status := Status.taken, takenAt := some now2 }) from rfl,
          lookupEntry_setEntry_self]
        rfl
      · rw [show ({ s with
            allReminders := setEntry s.allReminders id2
              ({ rd with status := Status.taken, takenAt := some now2 }),
            activeReminders := delEntry s.activeReminders id2 } :
              ServerState).allReminders = setEntry s.allReminders id2
                ({ rd with status := Status.taken, takenAt := some now2 }) from rfl,
          lookupEntry_setEntry_ne _ _ _ _ hij]
        exact h
  | fire id2 =>
    rw [step, fireTimer_allReminders]
    exact h

/-- Lifting of `step_preserves_presence` to event sequences. -/
theorem run_preserves_presence (s : ServerState) (id : String) (es : List Event)
    (h : (lookupEntry s.allReminders id).isSome = true) :
    (lookupEntry (run s es).allReminders id).isSome = true := by
  induction es generalizing s with
  | nil => exact h
  | cons e rest ih =>
    rw [run_cons]
    exact ih (step s e) (step_preserves_presence s id e h)

/-- The store-scheduler coupling invariant of the spec: every id with an
armed timer has a record in the store, and that record is in status
`active`. -/
def ArmedImpliesActive (s : ServerState) : Prop :=
  ∀ id e, lookupEntry s.activeReminders id = some e →
    ∃ r, lookupEntry s.allReminders id = some r ∧ r.status = Status.active

theorem step_preserves_armedImpliesActive (s : ServerState) (e : Event)
    (hinv : ArmedImpliesActive s) : ArmedImpliesActive (step s e) := by
  cases e with
  | create id2 name2 phone2 time2 now2 =>
    rcases createReminder_cases s id2 name2 phone2 time2 now2 with h | ⟨ha, _, _, hact⟩
    · rw [step, h]
      exact hinv
    · intro j a hj
      rw [step, ha] at *
      by_cases hij : j = id2
      · subst hij
        rw [lookupEntry_setEntry_self]
        exact ⟨_, rfl, rfl⟩
      · rw [lookupEntry_setEntry_ne _ _ _ _ hij]
        rcases hact with hact | ⟨p, _, hact⟩
        · rw [hact] at hj
          exact hinv j a hj
        · rw [hact, lookupEntry_setEntry_ne _ _ _ _ hij] at hj
          exact hinv j a hj
  | taken id2 now2 =>
    rcases markTaken_cases s id2 now2 with h | ⟨rd, hrd, h⟩
    · rw [step, h]
      exact hinv
    · intro j a hj
      rw [step, h] at *
      by_cases hij : j = id2
      · subst hij
        rw [show ({ s with
            allReminders := setEntry s.allReminders j
              ({ rd with status := Status.taken, takenAt := some now2 }),
            activeReminders := delEntry s.activeReminders j } :
              ServerState).activeReminders = delEntry s.activeReminders j from rfl,
          lookupEntry_delEntry_self] at hj
        exact absurd hj (by simp)
      · rw [show ({ s with
            allReminders := setEntry s.allReminders id2
              ({ rd with status := Status.taken, takenAt := some now2 }),
            activeReminders := delEntry s.activeReminders id2 } :
              ServerState).activeReminders = delEntry s.activeReminders id2 from rfl,
          lookupEntry_delEntry_ne _ _ _ hij] at hj
        obtain ⟨r, hr, hst⟩ := hinv j a hj
        rw [show ({ s with
            allReminders := setEntry s.allReminders id2
              ({ rd with status := Status.taken, takenAt := some now2 }),
            activeReminders := delEntry s.activeReminders id2 } :
              ServerState).allReminders = setEntry s.allReminders id2
                ({ rd with status := Status.taken, takenAt := some now2 }) from rfl,
          lookupEntry_setEntry_ne _ _ _ _ hij]
        exact ⟨r, hr, hst⟩
  | fire id2 =>
    rcases fireTimer_cases s id2 with h | ⟨e2, he2, ht2, hfire⟩
    · rw [step, h]
      exact hinv
    · intro j a hj
      have hj2 : lookupEntry s.activeReminders j = some a := by
        by_cases hij : j = id2
        · subst hij
          rcases hfire with h | h <;> rw [step, h, lookupEntry_delEntry_self] at hj <;>
            exact absurd hj (by simp)
        · rcases hfire with h | h <;>
            rw [step, h, lookupEntry_delEntry_ne _ _ _ hij] at hj <;> exact hj
      obtain ⟨r, hr, hst⟩ := hinv j a hj2
      rw [step, fireTimer_allReminders]
      exact ⟨r, hr, hst⟩

/-- The coupling invariant holds in every state reachable from process
start. -/
theorem run_armedImpliesActive_aux (s : ServerState) (es : List Event)
    (hinv : ArmedImpliesActive s) : ArmedImpliesActive (run s es) := by
  induction es generalizing s with
  | nil => exact hinv
  | cons e rest ih =>
    rw [run_cons]
    exact ih (step s e) (step_preserves_armedImpliesActive s e hinv)

/-- `KeyUnique` of the armed-timer map is preserved by every step. -/
theorem step_preserves_keyUnique (s : ServerState) (e : Event)
    (h : KeyUnique s.activeReminders) : KeyUnique (step s e).activeReminders := by
  cases e with
  | create id2 name2 phone2 time2 now2 =>
    rcases createReminder_cases s id2 name2 phone2 time2 now2 with h2 | ⟨_, _, _, hact⟩
    · rw [step, h2]
      exact h
    · rcases hact with hact | ⟨p, _, hact⟩
      · rw [step, hact]
        exact h
      · intro k
        rw [step, hact]
        by_cases hk : k = id2
        · subst hk
          rw [countKey_setEntry_self]
          exact max_le (h k) le_rfl
        · rw [countKey_setEntry_ne _ _ _ _ hk]
          exact h k
  | taken id2 now2 =>
    rcases markTaken_cases s id2 now2 with h2 | ⟨rd, hrd, h2⟩
    · rw [step, h2]
      exact h
    · intro k
      rw [step, h2]
      by_cases hk : k = id2
      · subst hk
        rw [show ({ s with
            allReminders := setEntry s.allReminders k
              ({ rd with status := Status.taken, takenAt := some now2 }),
            activeReminders := delEntry s.activeReminders k } :
              ServerState).activeReminders = delEntry s.activeReminders k from rfl,
          countKey_delEntry_self]
        exact Nat.zero_le 1
      · rw [show ({ s with
            allReminders := setEntry s.allReminders id2
              ({ rd with status := Status.taken, takenAt := some now2 }),
            activeReminders := delEntry s.activeReminders id2 } :
              ServerState).activeReminders = delEntry s.activeReminders id2 from rfl,
          countKey_delEntry_ne _ _ _ hk]
        exact h k
  | fire id2 =>
    rcases fireTimer_cases s id2 with h2 | ⟨e2, he2, ht2, hfire⟩
    · rw [step, h2]
      exact h
    · intro k
      by_cases hk : k = id2
      · subst hk
        rcases hfire with h2 | h2 <;> rw [step, h2] <;>
          simp [countKey_delEntry_self]
      · rcases hfire with h2 | h2 <;> rw [step, h2] <;>
          rw [countKey_delEntry_ne _ _ _ hk] <;> exact h k

/-- Double execution of the deadline of an armed, untriggered entry
produces exactly one notification attempt: the first run finalizes the arm
(removes it), so the second run finds nothing to do. -/
theorem double_fire_notifications (s : ServerState) (id : String)
    (a : ArmEntry) (ha : lookupEntry s.activeReminders id = some a)
    (ht : a.triggered = false) (hready : s.twilioReady = true) :
    (fireTimer (fireTimer s id) id).notifications
      = s.notifications ++ [alertOf id a] := by
  rw [fireTimer_fresh_eq s id a ha ht hready,
    fireTimer_none_eq _ id (lookupEntry_delEntry_self _ _)]

/- Concrete data used by the witnesses and counterexamples. -/

def phonePlus : String := "+15551234567"

def phoneNoPlus : String := "15551234567"

def idR1 : String := "r1"

def idR2 : String := "r2"

def idA : String := "a"

def idB : String := "b"

def medName : String := "ibuprofen"

def medName2 : String := "vitamin d"

def timeLabel : String := "08:00"

def timeLabel2 : String := "21:00"

/-- C1: arming a reminder and letting its deadline elapse without
cancellation makes exactly one notification attempt — even if the arm's
callback were executed a second time, nothing further is sent — and the
callback's `triggered` guard makes a run whose flag is already true abort
without any effect. -/
theorem claim1_at_most_once_fire
    (s : ServerState) (id name phone time : String) (now : Nat)
    (hid : ¬ id = "") (hph : startsWithPlus phone = true)
    (hready : s.twilioReady = true) :
    (fireTimer (fireTimer
        (createReminder s id name (some phone) time now).2 id) id).notifications
      = s.notifications ++ [alertOf id (freshArm name phone time)]
    ∧ (∀ t : ServerState, ∀ e : ArmEntry,
        lookupEntry t.activeReminders id = some e → e.triggered = true →
          fireTimer t id = t) := by
  constructor
  · rw [createReminder_ok_eq s id name phone time now hid hph]
    exact double_fire_notifications _ id _ (lookupEntry_setEntry_self _ _ _) rfl hready
  · exact fun t e he ht => fireTimer_triggered_eq t id e he ht

theorem claim1_witness :
    (fireTimer (fireTimer
        (createReminder (initState true) idR1 medName (some phonePlus) timeLabel 0).2
        idR1) idR1).notifications
      = (initState true).notifications
          ++ [alertOf idR1 (freshArm medName phonePlus timeLabel)] :=
  (claim1_at_most_once_fire (initState true) idR1 medName phonePlus timeLabel 0
    (by decide) (by decide) rfl).1

/-- C2: marking a reminder taken before its deadline removes the armed
timer and flips the record to `taken`, and from then on no run of further
events — deadline firings included — that does not re-create the id ever
adds a notification attempt for it. -/
theorem claim2_cancel_prevents_notification
    (s : ServerState) (id name phone time : String) (t1 t2 : Nat)
    (es : List Event)
    (hid : ¬ id = "") (hph : startsWithPlus phone = true)
    (hes : ∀ e ∈ es, isCreateFor id e = false) :
    lookupEntry (markTaken
        (createReminder s id name (some phone) time t1).2 id t2).2.activeReminders id
      = none
    ∧ (lookupEntry (markTaken
        (createReminder s id name (some phone) time t1).2 id t2).2.allReminders id).map
          Record.status = some Status.taken
    ∧ notifsFor (run (markTaken
        (createReminder s id name (some phone) time t1).2 id t2).2 es) id
      = notifsFor s id := by
  have hcr := createReminder_ok_eq s id name phone time t1 hid hph
  have hmt := markTaken_ok_eq (createReminder s id name (some phone) time t1).2
    id t2 (storedRec name (some phone) time t1) hid
    (by rw [hcr]; exact lookupEntry_setEntry_self _ _ _)
  have hnone : lookupEntry (markTaken
      (createReminder s id name (some phone) time t1).2 id t2).2.activeReminders id
        = none := by
    rw [hmt]
    exact lookupEntry_delEntry_self _ _
  refine ⟨hnone, ?_, ?_⟩
  · rw [hmt]
    have := lookupEntry_setEntry_self
      (createReminder s id name (some phone) time t1).2.allReminders id
      ({ storedRec name (some phone) time t1 with
          status := Status.taken, takenAt := some t2 })
    rw [show ({ (createReminder s id name (some phone) time t1).2 with
        allReminders := setEntry
          (createReminder s id name (some phone) time t1).2.allReminders id
          ({ storedRec name (some phone) time t1 with
              status := Status.taken, takenAt := some t2 }),
        activeReminders := delEntry
          (createReminder s id name (some phone) time t1).2.activeReminders id } :
          ServerState).allReminders = setEntry
            (createReminder s id name (some phone) time t1).2.allReminders id
            ({ storedRec name (some phone) time t1 with
                status := Status.taken, takenAt := some t2 }) from rfl, this]
    rfl
  · have h := run_preserves_unarmed (markTaken
      (createReminder s id name (some phone) time t1).2 id t2).2 id es hnone hes
    refine h.2.trans ?_
    rw [hmt, hcr]
    rfl

theorem claim2_witness :
    lookupEntry (markTaken
        (createReminder (initState true) idR1 medName (some phonePlus) timeLabel 0).2
        idR1 5).2.activeReminders idR1 = none
    ∧ (lookupEntry (markTaken
        (createReminder (initState true) idR1 medName (some phonePlus) timeLabel 0).2
        idR1 5).2.allReminders idR1).map Record.status = some Status.taken
    ∧ notifsFor (run (markTaken
        (createReminder (initState true) idR1 medName (some phonePlus) timeLabel 0).2
        idR1 5).2 [Event.fire idR1]) idR1 = notifsFor (initState true) idR1 :=
  claim2_cancel_prevents_notification (initState true) idR1 medName phonePlus
    timeLabel 0 5 [Event.fire idR1] (by decide) (by decide) (by decide)

/-- C3 counterexample: after marking `r1` taken at time 5 and again at
time 9, the second call succeeds and `takenAt` now reads 9, not the 5
recorded by the first transition — the handler overwrites `takenAt`
unconditionally (src/server.js line 403), so the claim that the first
timestamp is preserved is false. -/
theorem claim3_counterexample :
    (markTaken (markTaken
        (createReminder (initState true) idR1 medName (some phonePlus) timeLabel 0).2
        idR1 5).2 idR1 9).1 = TakenResult.ok 9
    ∧ (lookupEntry (markTaken
        (createReminder (initState true) idR1 medName (some phonePlus) timeLabel 0).2
        idR1 5).2.allReminders idR1).map Record.takenAt = some (some 5)
    ∧ (lookupEntry (markTaken (markTaken
        (createReminder (initState true) idR1 medName (some phonePlus) timeLabel 0).2
        idR1 5).2 idR1 9).2.allReminders idR1).map Record.takenAt = some (some 9)
    ∧ some (some 9) ≠ some (some 5) := by decide

/-- C3 amended: a second `markTaken` on an already-taken id still returns
success and the record never moves back to `active`, but `takenAt` is
overwritten with the second call's timestamp — last write wins, not
first. -/
theorem claim3_amended (s : ServerState) (id : String) (r : Record) (t2 : Nat)
    (hid : ¬ id = "") (hr : lookupEntry s.allReminders id = some r)
    (_hst : r.status = Status.taken) :
    (markTaken s id t2).1 = TakenResult.ok t2
    ∧ lookupEntry (markTaken s id t2).2.allReminders id
      = some ({ r with status := Status.taken, takenAt := some t2 }) := by
  rw [markTaken_ok_eq s id t2 r hid hr]
  exact ⟨rfl, lookupEntry_setEntry_self _ _ _⟩

theorem claim3_witness :
    (markTaken (markTaken
        (createReminder (initState true) idR1 medName (some phonePlus) timeLabel 0).2
        idR1 5).2 idR1 9).1 = TakenResult.ok 9
    ∧ lookupEntry (markTaken (markTaken
        (createReminder (initState true) idR1 medName (some phonePlus) timeLabel 0).2
        idR1 5).2 idR1 9).2.allReminders idR1
      = some { medicineName := medName, guardianPhone := some phonePlus,
               time := timeLabel, status := Status.taken, createdAt := 0,
               takenAt := some 9 } :=
  claim3_amended (markTaken
      (createReminder (initState true) idR1 medName (some phonePlus) timeLabel 0).2
      idR1 5).2 idR1
    { medicineName := medName, guardianPhone := some phonePlus,
      time := timeLabel, status := Status.taken, createdAt := 0,
      takenAt := some 5 } 9 (by decide) (by decide) (by decide)

/-- C4 counterexample: the claim quantifies over all public operations,
but `createReminder` overwrites an existing record and resets its status
to `active` (src/server.js lines 259-266): after create, markTaken, the
record reads `taken`, and a further create for the same id makes it read
`active` again. -/
theorem claim4_counterexample :
    (lookupEntry (run (initState true)
        [Event.create idR1 medName (some phonePlus) timeLabel 0,
         Event.taken idR1 5]).allReminders idR1).map Record.status
      = some Status.taken
    ∧ (lookupEntry (run (initState true)
        [Event.create idR1 medName (some phonePlus) timeLabel 0,
         Event.taken idR1 5,
         Event.create idR1 medName (some phonePlus) timeLabel 9]).allReminders
          idR1).map Record.status = some Status.active := by decide

/-- C4 amended: once a record's status is `taken` it stays `taken` across
every later sequence of public operations that contains no create request
for that id (re-creation, allowed by the store's overwrite semantics,
resets the record to `active`). -/
theorem claim4_amended (s : ServerState) (id : String) (r : Record)
    (es : List Event)
    (hr : lookupEntry s.allReminders id = some r)
    (hst : r.status = Status.taken)
    (hes : ∀ e ∈ es, isCreateFor id e = false) :
    (lookupEntry (run s es).allReminders id).map Record.status
      = some Status.taken := by
  obtain ⟨r2, hr2, hst2⟩ := run_preserves_taken s id es r hr hst hes
  simp [hr2, hst2]

theorem claim4_witness :
    (lookupEntry (run (markTaken
        (createReminder (initState true) idR1 medName (some phonePlus) timeLabel 0).2
        idR1 5).2
        [Event.create idR2 medName2 (some phonePlus) timeLabel2 6,
         Event.fire idR1,
         Event.taken idR1 8]).allReminders idR1).map Record.status
      = some Status.taken :=
  claim4_amended (markTaken
      (createReminder (initState true) idR1 medName (some phonePlus) timeLabel 0).2
      idR1 5).2 idR1
    { medicineName := medName, guardianPhone := some phonePlus,
      time := timeLabel, status := Status.taken, createdAt := 0,
      takenAt := some 5 }
    [Event.create idR2 medName2 (some phonePlus) timeLabel2 6,
     Event.fire idR1,
     Event.taken idR1 8] (by decide) (by decide) (by decide)

/-- C5: creating a reminder with a non-empty id and a phone lacking the
leading `+` returns the `InvalidPhoneFormat` 400, yet the record has
already been written to the store with status `active` and stays there,
and the call arms no timer (and sends nothing). -/
theorem claim5_store_then_validate
    (s : ServerState) (id name phone time : String) (now : Nat)
    (hid : ¬ id = "") (hph : startsWithPlus phone = false) :
    (createReminder s id name (some phone) time now).1 = CreateResult.invalidPhone
    ∧ lookupEntry (createReminder s id name (some phone) time now).2.allReminders id
      = some (storedRec name (some phone) time now)
    ∧ (storedRec name (some phone) time now).status = Status.active
    ∧ (createReminder s id name (some phone) time now).2.activeReminders
      = s.activeReminders
    ∧ (createReminder s id name (some phone) time now).2.notifications
      = s.notifications := by
  rw [createReminder_invalid_eq s id name phone time now hid hph]
  exact ⟨rfl, lookupEntry_setEntry_self _ _ _, rfl, rfl, rfl⟩

theorem claim5_witness :
    (createReminder (initState true) idR2 medName (some phoneNoPlus)
        timeLabel 0).1 = CreateResult.invalidPhone
    ∧ lookupEntry (createReminder (initState true) idR2 medName (some phoneNoPlus)
        timeLabel 0).2.allReminders idR2
      = some (storedRec medName (some phoneNoPlus) timeLabel 0)
    ∧ (storedRec medName (some phoneNoPlus) timeLabel 0).status = Status.active
    ∧ (createReminder (initState true) idR2 medName (some phoneNoPlus)
        timeLabel 0).2.activeReminders = (initState true).activeReminders
    ∧ (createReminder (initState true) idR2 medName (some phoneNoPlus)
        timeLabel 0).2.notifications = (initState true).notifications :=
  claim5_store_then_validate (initState true) idR2 medName phoneNoPlus
    timeLabel 0 (by decide) (by decide)

/-- C6: a second valid create for the same id replaces the existing armed
timer: afterwards the armed map holds exactly one entry for the id, it is
the new arm (new payload, `triggered := false`), and firing the deadline
produces the new arm's alert, not the old one's. -/
theorem claim6_rearm_replaces_timer
    (s : ServerState) (id n1 p1 t1 n2 p2 t2 : String) (tm1 tm2 : Nat)
    (hq : KeyUnique s.activeReminders) (hid : ¬ id = "")
    (hp1 : startsWithPlus p1 = true) (hp2 : startsWithPlus p2 = true)
    (hready : s.twilioReady = true) :
    countKey (createReminder (createReminder s id n1 (some p1) t1 tm1).2
        id n2 (some p2) t2 tm2).2.activeReminders id = 1
    ∧ lookupEntry (createReminder (createReminder s id n1 (some p1) t1 tm1).2
        id n2 (some p2) t2 tm2).2.activeReminders id = some (freshArm n2 p2 t2)
    ∧ (fireTimer (createReminder (createReminder s id n1 (some p1) t1 tm1).2
        id n2 (some p2) t2 tm2).2 id).notifications
      = s.notifications ++ [alertOf id (freshArm n2 p2 t2)] := by
  have hcr1 := createReminder_ok_eq s id n1 p1 t1 tm1 hid hp1
  have hcr2 := createReminder_ok_eq (createReminder s id n1 (some p1) t1 tm1).2
    id n2 p2 t2 tm2 hid hp2
  have hc1 : countKey (createReminder s id n1 (some p1) t1 tm1).2.activeReminders
      id = 1 := by
    rw [hcr1]
    show countKey (setEntry s.activeReminders id (freshArm n1 p1 t1)) id = 1
    rw [countKey_setEntry_self, max_eq_right (hq id)]
  have hlook : lookupEntry (createReminder
      (createReminder s id n1 (some p1) t1 tm1).2 id n2 (some p2) t2
      tm2).2.activeReminders id = some (freshArm n2 p2 t2) := by
    rw [hcr2]
    exact lookupEntry_setEntry_self _ _ _
  have htr : (createReminder (createReminder s id n1 (some p1) t1 tm1).2 id n2
      (some p2) t2 tm2).2.twilioReady = true := by
    rw [hcr2, hcr1]
    exact hready
  refine ⟨?_, hlook, ?_⟩
  · rw [hcr2]
    show countKey (setEntry
      (createReminder s id n1 (some p1) t1 tm1).2.activeReminders id
      (freshArm n2 p2 t2)) id = 1
    rw [countKey_setEntry_self, hc1]
    exact max_self 1
  · rw [fireTimer_fresh_eq (createReminder
      (createReminder s id n1 (some p1) t1 tm1).2 id n2 (some p2) t2 tm2).2
      id (freshArm n2 p2 t2) hlook rfl htr]
    show (createReminder (createReminder s id n1 (some p1) t1 tm1).2 id n2
        (some p2) t2 tm2).2.notifications ++ [alertOf id (freshArm n2 p2 t2)]
      = s.notifications ++ [alertOf id (freshArm n2 p2 t2)]
    rw [hcr2, hcr1]

theorem claim6_witness :
    countKey (createReminder (createReminder (initState true) idR1 medName
        (some phonePlus) timeLabel 0).2 idR1 medName2 (some phonePlus)
        timeLabel2 3).2.activeReminders idR1 = 1
    ∧ lookupEntry (createReminder (createReminder (initState true) idR1 medName
        (some phonePlus) timeLabel 0).2 idR1 medName2 (some phonePlus)
        timeLabel2 3).2.activeReminders idR1
      = some (freshArm medName2 phonePlus timeLabel2)
    ∧ (fireTimer (createReminder (createReminder (initState true) idR1 medName
        (some phonePlus) timeLabel 0).2 idR1 medName2 (some phonePlus)
        timeLabel2 3).2 idR1).notifications
      = (initState true).notifications
        ++ [alertOf idR1 (freshArm medName2 phonePlus timeLabel2)] :=
  claim6_rearm_replaces_timer (initState true) idR1 medName phonePlus timeLabel
    medName2 phonePlus timeLabel2 0 3 (fun _ => Nat.zero_le 1) (by decide)
    (by decide) (by decide) rfl

/-- C7: in every state reachable from process start by the public
operations, every id with an armed timer also has a record in the store,
and that record's status is `active`. -/
theorem claim7_armed_implies_active (ready : Bool) (es : List Event) :
    ArmedImpliesActive (run (initState ready) es) :=
  run_armedImpliesActive_aux (initState ready) es
    (fun _ _ h => absurd h (by simp [initState, lookupEntry]))

theorem claim7_witness :
    (lookupEntry (run (initState true)
        [Event.create idR1 medName (some phonePlus) timeLabel 0]).allReminders
        idR1).map Record.status = some Status.active := by
  obtain ⟨r, hr, hst⟩ := claim7_armed_implies_active true
    [Event.create idR1 medName (some phonePlus) timeLabel 0]
    idR1 (freshArm medName phonePlus timeLabel) (by decide)
  simp [hr, hst]

/-- C8: `listReminders` reports every record ever created — no handler
removes store entries — in stable insertion order; in particular creating
`a` then `b` and marking `a` taken lists both, in creation order, with
`a` taken and `b` active. -/
theorem claim8_list_insertion_order
    (s : ServerState) (id : String) (es : List Event)
    (hmem : (lookupEntry s.allReminders id).isSome = true) :
    (lookupEntry (run s es).allReminders id).isSome = true
    ∧ listReminders (run (initState true)
        [Event.create idA medName (some phonePlus) timeLabel 0,
         Event.create idB medName2 (some phonePlus) timeLabel2 1,
         Event.taken idA 2])
      = [(idA, { medicineName := medName, guardianPhone := some phonePlus,
                 time := timeLabel, status := Status.taken, createdAt := 0,
                 takenAt := some 2 }),
         (idB, { medicineName := medName2, guardianPhone := some phonePlus,
                 time := timeLabel2, status := Status.active, createdAt := 1,
                 takenAt := none })] :=
  ⟨run_preserves_presence s id es hmem, by decide⟩

theorem claim8_witness :
    (lookupEntry (run (createReminder (initState true) idR1 medName
        (some phonePlus) timeLabel 0).2 [Event.fire idR1]).allReminders
        idR1).isSome = true
    ∧ listReminders (run (initState true)
        [Event.create idA medName (some phonePlus) timeLabel 0,
         Event.create idB medName2 (some phonePlus) timeLabel2 1,
         Event.taken idA 2])
      = [(idA, { medicineName := medName, guardianPhone := some phonePlus,
                 time := timeLabel, status := Status.taken, createdAt := 0,
                 takenAt := some 2 }),
         (idB, { medicineName := medName2, guardianPhone := some phonePlus,
                 time := timeLabel2, status := Status.active, createdAt := 1,
                 takenAt := none })] :=
  claim8_list_insertion_order (createReminder (initState true) idR1 medName
    (some phonePlus) timeLabel 0).2 idR1 [Event.fire idR1] (by decide)

/-- C9: a create request with a non-empty id but no `guardianPhone` field
neither yields the 400 of a failed phone validation nor succeeds: it
raises the `TypeError` of calling `startsWith` on `undefined`, and by then
the record is already in the store with status `active` and no timer has
been armed. -/
theorem claim9_missing_phone_type_error
    (s : ServerState) (id name time : String) (now : Nat) (hid : ¬ id = "") :
    (createReminder s id name none time now).1 = CreateResult.typeError
    ∧ (createReminder s id name none time now).1 ≠ CreateResult.invalidPhone
    ∧ (createReminder s id name none time now).1 ≠ CreateResult.ok
    ∧ lookupEntry (createReminder s id name none time now).2.allReminders id
      = some (storedRec name none time now)
    ∧ (storedRec name none time now).status = Status.active
    ∧ (createReminder s id name none time now).2.activeReminders
      = s.activeReminders := by
  rw [createReminder_none_eq s id name time now hid]
  refine ⟨rfl, ?_, ?_, lookupEntry_setEntry_self _ _ _, rfl, rfl⟩ <;> simp

theorem claim9_witness :
    (createReminder (initState true) idR1 medName none timeLabel 0).1
      = CreateResult.typeError
    ∧ (createReminder (initState true) idR1 medName none timeLabel 0).1
      ≠ CreateResult.invalidPhone
    ∧ (createReminder (initState true) idR1 medName none timeLabel 0).1
      ≠ CreateResult.ok
    ∧ lookupEntry (createReminder (initState true) idR1 medName none
        timeLabel 0).2.allReminders idR1 = some (storedRec medName none timeLabel 0)
    ∧ (storedRec medName none timeLabel 0).status = Status.active
    ∧ (createReminder (initState true) idR1 medName none
        timeLabel 0).2.activeReminders = (initState true).activeReminders :=
  claim9_missing_phone_type_error (initState true) idR1 medName timeLabel 0
    (by decide)

/-- C10: firing a timer never touches the store: whatever the armed map
holds, `fireTimer` leaves `allReminders` — and hence what `listReminders`
returns — exactly as it was. -/
theorem claim10_fire_frame (s : ServerState) (id : String) :
    (fireTimer s id).allReminders = s.allReminders
    ∧ listReminders (fireTimer s id) = listReminders s :=
  ⟨fireTimer_allReminders s id, fireTimer_listReminders s id⟩

end Invictus
